import Mathlib

/-!
Shallow embedding of the `negronilogrus` middleware (files `middleware.go`
and the context-carrier file) together with proofs of its specified
properties.

Modelling conventions:
* A `logrus.Fields` map (`map[string]interface{}`) is embedded as a lookup
  function `String → Option Value`; Go map writes become pointwise updates.
* A `logrus.Entry` is a backend reference plus its accumulated field map.
* A Go `context.Context` is embedded by its two slots relevant to this
  package: the logger-carrier slot (keyed by `ctxLoggerKey`) and the
  response-writer slot (keyed by `ctxWriterKey`).  A slot records whether
  the key is absent, holds a value of the wrong type, holds a nil pointer,
  or holds a carrier.
* `time.Duration` is an `Int` counting nanoseconds (`Duration.Nanoseconds`
  is the identity under this embedding); the `timer` interface is a pair of
  an instant and a latency function.
* Side effects of `ServeHTTP` (log records emitted, the arguments the next
  handler and the After hook are invoked with, the post-call middleware
  state) are collected in an explicit `ServeResult`.
-/

namespace NegroniLogrus

/-- A value stored in a structured-log field: Go `interface{}` restricted to
the value shapes this package actually stores (strings, int64s, and
`time.Duration`s). -/
inductive Value where
  | str (s : String)
  | int (n : Int)
  | dur (d : Int)
  deriving DecidableEq, Repr

/-- A `logrus.Fields` map, embedded as its lookup function. -/
abbrev FieldMap := String → Option Value

/-- The empty field map. -/
def emptyFields : FieldMap := fun _ => none

/-- Writing one key of a Go map: `m[k] = v`. -/
def mapSet (m : FieldMap) (k : String) (v : Value) : FieldMap :=
  fun q => if q == k then some v else m q

/-- Writing a sequence of key/value pairs into a map, in order (later writes
win, as in Go). -/
def mapSetList (m : FieldMap) (ps : List (String × Value)) : FieldMap :=
  ps.foldl (fun acc p => mapSet acc p.1 p.2) m

/-- Building a `logrus.Fields` literal from key/value pairs. -/
def mkFields (ps : List (String × Value)) : FieldMap :=
  mapSetList emptyFields ps

/-- Identity of a `*logrus.Logger` backend: either the package's `nullLogger`
(modelled from the spec: `nullLogger` is defined outside the given sources;
per the spec it is a no-op logger bound to a discard sink) or a
caller-supplied logger. -/
inductive LoggerId where
  | null
  | user (n : Nat)
  deriving DecidableEq, Repr

/-- A `*logrus.Entry`: a backend reference plus the accumulated field map. -/
structure Entry where
  logger : LoggerId
  data : FieldMap

/-- `entry.WithFields(m)`: a derived entry whose data is the entry's data
overridden by the map `m` (new keys win). -/
def withFields (e : Entry) (m : FieldMap) : Entry :=
  ⟨e.logger, fun k =>
    match m k with
    | some v => some v
    | none => e.data k⟩

/-- `entry.WithField(k, v)` = `entry.WithFields({k: v})`. -/
def withField (e : Entry) (k : String) (v : Value) : Entry :=
  withFields e (mkFields [(k, v)])

/-- The `ctxLogger` holder stored under `ctxLoggerKey`: the stored entry and
the accumulating field map. -/
structure CtxLogger where
  logger : Entry
  fields : FieldMap

/-- What `ctx.Value(ctxLoggerKey)` can yield, as seen by the type assertion
`.(*ctxLogger)` in `Extract`: the key may be absent, hold a value of another
type, hold a nil `*ctxLogger`, or hold a carrier. -/
inductive LoggerSlot where
  | absent
  | wrongType
  | nilCarrier
  | carrier (l : CtxLogger)

/-- An `http.ResponseWriter`: `supportsStatus` records whether the dynamic
type additionally satisfies `negroni.ResponseWriter` (the status-capturing
capability); `status` is the status code the writer has recorded. -/
structure Writer where
  supportsStatus : Bool
  status : Int

/-- A `context.Context`, restricted to the two slots this package keys. -/
structure Context where
  loggerSlot : LoggerSlot
  writerSlot : Option Writer

/-- `Extract(ctx)`: the type assertion on `ctx.Value(ctxLoggerKey)`; on
failure or a nil carrier, a fresh entry on `nullLogger`; otherwise the
stored entry with a copy of the carrier's accumulated fields merged on. -/
def Extract (ctx : Context) : Entry :=
  match ctx.loggerSlot with
  | .absent => ⟨LoggerId.null, emptyFields⟩
  | .wrongType => ⟨LoggerId.null, emptyFields⟩
  | .nilCarrier => ⟨LoggerId.null, emptyFields⟩
  | .carrier l => withFields l.logger l.fields

/-- `ToContext(ctx, entry)`: attach a fresh carrier holding `entry` and an
empty field map under `ctxLoggerKey`. -/
def ToContext (ctx : Context) (entry : Entry) : Context :=
  { ctx with loggerSlot := .carrier ⟨entry, emptyFields⟩ }

/-- `ExtractWriter(ctx)`: the (possibly failing) type assertion on
`ctx.Value(ctxWriterKey)`; `none` stands for the nil interface that results
when the key is absent or holds a non-writer. -/
def ExtractWriter (ctx : Context) : Option Writer :=
  ctx.writerSlot

/-- `AddWriterToContext(ctx, rw)`. -/
def AddWriterToContext (ctx : Context) (rw : Writer) : Context :=
  { ctx with writerSlot := some rw }

/-- An `*http.Request`, restricted to what the middleware reads: the URL
path, the request URI, the method, the transport remote address, the
headers, and the request's context. -/
structure Request where
  urlPath : String
  requestURI : String
  method : String
  remoteAddr : String
  headers : List (String × String)
  ctx : Context

/-- `r.Header.Get(k)`: the first value for the key, or the empty string. -/
def headerGet (r : Request) (k : String) : String :=
  match r.headers.find? (fun p => p.1 == k) with
  | some p => p.2
  | none => ""

/-- The `timer` interface: an instant for `Now()` and a latency function for
`Since(start)`. -/
structure Clock where
  now : Int
  since : Int → Int

/-- The `Middleware` struct.  The Before/After hook fields are `Option`s
because Go function fields may be nil; `loggerId` identifies the backend the
`Logger` field points at. -/
structure Middleware where
  loggerId : LoggerId
  name : String
  before : Option (Entry → Request → String → Entry)
  after : Option (Entry → Writer → Int → String → Entry)
  logStarting : Bool
  clock : Clock
  excludeURLs : List String

/-- `DefaultBefore`: attach the request target, method and remote address. -/
def DefaultBefore (entry : Entry) (req : Request) (remoteAddr : String) : Entry :=
  withFields entry (mkFields
    [("request", Value.str req.requestURI),
     ("method", Value.str req.method),
     ("remote", Value.str remoteAddr)])

/-- Models the external `net/http.StatusText` lookup (out of scope per the
spec): the textual description of a status code, with the empty string for
codes outside this table. -/
def StatusText (code : Int) : String :=
  if code == 200 then "OK"
  else if code == 201 then "Created"
  else if code == 204 then "No Content"
  else if code == 301 then "Moved Permanently"
  else if code == 302 then "Found"
  else if code == 400 then "Bad Request"
  else if code == 401 then "Unauthorized"
  else if code == 403 then "Forbidden"
  else if code == 404 then "Not Found"
  else if code == 500 then "Internal Server Error"
  else ""

/-- `DefaultAfter`: attach the numeric status, its text, the latency
duration, and the `measure#<name>.latency` nanosecond count. -/
def DefaultAfter (entry : Entry) (res : Writer) (latency : Int) (name : String) : Entry :=
  withFields entry (mkFields
    [("status", Value.int res.status),
     ("text_status", Value.str (StatusText res.status)),
     ("took", Value.dur latency),
     ("measure#" ++ name ++ ".latency", Value.int latency)])

/-- What the downstream chain does with the writer and the rebound request
it is handed.  `status` is the status code it writes to that writer;
`fieldAdds` are the writes it performs, in order, on the accumulating field
map of the carrier found in its request context (modelled from the spec:
downstream handlers may enrich the handle reachable via `Extract` — the
enrichment entry point itself is outside the given sources, which only show
the carrier's mutable `fields` map and the middleware's comment that fields
"changed in the holder"); `installedWriter` is a writer the chain deposits
via `AddWriterToContext` into its own derived context, which per Go context
semantics is never visible to the caller. -/
structure NextOutcome where
  status : Int
  fieldAdds : List (String × Value)
  installedWriter : Option Writer

/-- The effect of the downstream chain's field writes on the carrier stored
in a context (the carrier holder is shared by pointer, so the middleware
observes these writes when it re-extracts). -/
def applyAdds (ctx : Context) (adds : List (String × Value)) : Context :=
  match ctx.loggerSlot with
  | .carrier l => { ctx with loggerSlot := .carrier ⟨l.logger, mapSetList l.fields adds⟩ }
  | _ => ctx

/-- One emitted log record: the message of the `Info` call and the entry it
was invoked on. -/
structure LogRecord where
  msg : String
  entry : Entry

/-- The observable outcome of one `ServeHTTP` call: the middleware state
after the call (`ServeHTTP` has a pointer receiver, so its writes to hook
fields persist), the arguments `next` was invoked with, the log records
emitted in order, and — when the After hook ran — the arguments it was
invoked with. -/
structure ServeResult where
  finalM : Middleware
  nextArgs : Writer × Request
  logs : List LogRecord
  afterCall : Option (Entry × Writer × Int)

/-- `Middleware.ServeHTTP`, with the downstream chain abstracted by `next`.
Mirrors `middleware.go` line by line: default nil hooks, check excluded
URLs, start the timer, resolve the remote address, build the entry, run the
Before hook, optionally log the start, install the carrier and rebind the
request, dispatch, measure latency, recover a status-capturing writer
(directly or through `ExtractWriter` on the original request's context),
and if one is recovered re-extract the handle and log completion through
the After hook. -/
def ServeHTTP (m : Middleware) (rw : Writer) (r : Request)
    (next : Writer → Request → NextOutcome) : ServeResult :=
  let before := m.before.getD DefaultBefore
  let after := m.after.getD DefaultAfter
  let m1 : Middleware := { m with before := some before, after := some after }
  if m.excludeURLs.contains r.urlPath then
    ⟨m1, (rw, r), [], none⟩
  else
    let start := m.clock.now
    let realIP := headerGet r "X-Real-IP"
    let remoteAddr := if realIP != "" then realIP else r.remoteAddr
    let entry0 : Entry := ⟨m.loggerId, emptyFields⟩
    let reqID := headerGet r "X-Request-Id"
    let entry1 := if reqID != "" then withField entry0 "request_id" (Value.str reqID) else entry0
    let entry := before entry1 r remoteAddr
    let startLogs := if m.logStarting then [LogRecord.mk "started handling request" entry] else []
    let newCtx := ToContext r.ctx entry
    let rbound := { r with ctx := newCtx }
    let out := next rw rbound
    let rw2 : Writer := { rw with status := out.status }
    let ctxAfter := applyAdds newCtx out.fieldAdds
    let latency := m.clock.since start
    let res : Option Writer :=
      if rw2.supportsStatus then some rw2
      else
        match ExtractWriter r.ctx with
        | some w => if w.supportsStatus then some w else none
        | none => none
    match res with
    | some resW =>
        let log := Extract ctxAfter
        ⟨m1, (rw, rbound),
          startLogs ++ [LogRecord.mk "completed handling request" (after log resW latency m.name)],
          some (log, resW, latency)⟩
    | none => ⟨m1, (rw, rbound), startLogs, none⟩

/-- `Middleware.ExcludeURL`, with the external `net/url.Parse` validation
abstracted as `urlParse` (returning `some err` on a malformed URL).  Returns
the error result paired with the middleware state after the call. -/
def ExcludeURL (urlParse : String → Option String) (m : Middleware) (u : String) :
    Option String × Middleware :=
  match urlParse u with
  | some err => (some err, m)
  | none => (none, { m with excludeURLs := m.excludeURLs ++ [u] })

/-- `Middleware.ExcludedURLs`. -/
def ExcludedURLs (m : Middleware) : List String :=
  m.excludeURLs

/-- Number of log records carrying a given message. -/
def countMsg : List LogRecord → String → Nat
  | [], _ => 0
  | rec :: rest, msg => (if rec.msg == msg then 1 else 0) + countMsg rest msg

/-- The last value written for key `k` by a sequence of map writes, if any. -/
def lastAssign : List (String × Value) → String → Option Value
  | [], _ => none
  | p :: rest, k =>
    match lastAssign rest k with
    | some v => some v
    | none => if k == p.1 then some p.2 else none

/-! Concrete fixtures used by witness theorems. -/

/-- A context untouched by this package. -/
def ctx0 : Context := ⟨LoggerSlot.absent, none⟩

/-- A middleware as built by a plain struct literal: nil hooks, one excluded
path, start-logging enabled. -/
def mW : Middleware :=
  ⟨LoggerId.user 0, "web", none, none, true, ⟨0, fun _ => 50000000⟩, ["/healthz"]⟩

/-- A writer without the status-capturing capability. -/
def rwPlain : Writer := ⟨false, 0⟩

/-- A status-capturing (`negroni.ResponseWriter`) writer. -/
def rwCap : Writer := ⟨true, 0⟩

/-- A request to the excluded path. -/
def rExc : Request := ⟨"/healthz", "/healthz", "GET", "10.0.0.1:1234", [], ctx0⟩

/-- A request to a non-excluded path. -/
def rStd : Request := ⟨"/api", "/api?q=1", "GET", "10.0.0.1:1234", [], ctx0⟩

/-- A downstream chain that writes 200 and touches nothing else. -/
def nextNoop : Writer → Request → NextOutcome := fun _ _ => ⟨200, [], none⟩

/-- A downstream chain that writes 200 and enriches the carrier with one
field. -/
def nextEnrich : Writer → Request → NextOutcome :=
  fun _ _ => ⟨200, [("user_id", Value.str "u1")], none⟩

/-! Helper lemmas about field maps. -/

/-- Looking a key up after a sequence of map writes yields the last value
written for that key, falling back to the original map. -/
theorem mapSetList_lookup (adds : List (String × Value)) (base : FieldMap) (k : String) :
    mapSetList base adds k =
      match lastAssign adds k with
      | some v => some v
      | none => base k := by
  induction adds generalizing base with
  | nil => rfl
  | cons p rest ih =>
    show mapSetList (mapSet base p.1 p.2) rest k = _
    rw [ih]
    cases hL : lastAssign rest k with
    | some v => simp [lastAssign, hL]
    | none =>
      cases h2 : k == p.1 <;> simp [lastAssign, hL, mapSet, h2]

end NegroniLogrus

namespace NegroniLogrus

/-- `countMsg` distributes over list append. -/
theorem countMsg_append (a b : List LogRecord) (msg : String) :
    countMsg (a ++ b) msg = countMsg a msg + countMsg b msg := by
  induction a with
  | nil => simp [countMsg]
  | cons rec rest ih => simp [countMsg, ih, Nat.add_assoc]

/-- Claim C3: for every context value never produced by `ToContext` (carrier key
absent, of the wrong type, or holding a nil carrier), `Extract` returns a
freshly constructed no-op entry bound to the discard backend `nullLogger`;
it is total (never fails, never panics) and never yields nil. -/
theorem extract_no_carrier (ctx : Context)
    (h : ∀ l, ctx.loggerSlot ≠ LoggerSlot.carrier l) :
    Extract ctx = ⟨LoggerId.null, emptyFields⟩ := by
  cases hs : ctx.loggerSlot with
  | absent => simp [Extract, hs]
  | wrongType => simp [Extract, hs]
  | nilCarrier => simp [Extract, hs]
  | carrier l => exact absurd hs (h l)

/-- Witness for C3 at the untouched context `ctx0`. -/
theorem extract_no_carrier_witness :
    Extract ctx0 = ⟨LoggerId.null, emptyFields⟩ :=
  extract_no_carrier ctx0 (fun _ h => LoggerSlot.noConfusion h)

/-- Claim C4: `Extract (ToContext ctx e)` carries exactly the field set of `e`
(no key added, none removed) and the same backend. -/
theorem extract_toContext (ctx : Context) (e : Entry) :
    (∀ k, (Extract (ToContext ctx e)).data k = e.data k) ∧
    (Extract (ToContext ctx e)).logger = e.logger :=
  ⟨fun _ => rfl, rfl⟩

/-- Claim C6: `DefaultAfter` returns the entry enriched with exactly the four
fields `status`, `text_status`, `took` and `measure#<name>.latency`
(latency in nanoseconds under this embedding); every other key is looked up
unchanged from the input entry. -/
theorem defaultAfter_fields (e : Entry) (w : Writer) (l : Int) (n k : String) :
    (DefaultAfter e w l n).data k =
      if k == "measure#" ++ n ++ ".latency" then some (Value.int l)
      else if k == "took" then some (Value.dur l)
      else if k == "text_status" then some (Value.str (StatusText w.status))
      else if k == "status" then some (Value.int w.status)
      else e.data k := by
  simp only [DefaultAfter, withFields, mkFields, mapSetList, List.foldl, mapSet, emptyFields]
  cases h1 : k == "measure#" ++ n ++ ".latency" <;>
    cases h2 : k == "took" <;>
      cases h3 : k == "text_status" <;>
        cases h4 : k == "status" <;>
          simp [h1, h2, h3, h4]

/-- Claim C7: `ExcludeURL` either reports the validation error of the (external)
URL parse and leaves the middleware — in particular its excluded-path
list — completely unchanged, or reports no error and appends exactly the
literal input string to the end of the list. -/
theorem excludeURL_atomic (p : String → Option String) (m : Middleware) (u : String) :
    (∃ e, p u = some e ∧ ExcludeURL p m u = (some e, m)) ∨
    (p u = none ∧
      ExcludeURL p m u = (none, { m with excludeURLs := m.excludeURLs ++ [u] })) := by
  cases h : p u with
  | none => exact Or.inr ⟨rfl, by simp [ExcludeURL, h]⟩
  | some e => exact Or.inl ⟨e, rfl, by simp [ExcludeURL, h]⟩

/-- Claim C1: on a request whose path exactly equals an excluded entry, `ServeHTTP`
invokes `next` with the original writer and the original request (context
untouched, no carrier attached), emits no log record, and never reaches the
After hook — for every hook configuration and log-starting setting. -/
theorem serveHTTP_excluded_skip (m : Middleware) (rw : Writer) (r : Request)
    (next : Writer → Request → NextOutcome)
    (hex : m.excludeURLs.contains r.urlPath = true) :
    (ServeHTTP m rw r next).nextArgs = (rw, r) ∧
    (ServeHTTP m rw r next).logs = [] ∧
    (ServeHTTP m rw r next).afterCall = none := by
  refine ⟨?_, ?_, ?_⟩ <;> (unfold ServeHTTP; rw [hex]; simp)

/-- Witness for C1 at a concrete excluded request. -/
theorem serveHTTP_excluded_skip_witness :
    (ServeHTTP mW rwPlain rExc nextNoop).nextArgs = (rwPlain, rExc) ∧
    (ServeHTTP mW rwPlain rExc nextNoop).logs = [] ∧
    (ServeHTTP mW rwPlain rExc nextNoop).afterCall = none :=
  serveHTTP_excluded_skip mW rwPlain rExc nextNoop (by decide)

/-- Claim C2: on every non-excluded request, exactly one "started handling
request" record is emitted iff the log-starting option is enabled, and at
most one "completed handling request" record is emitted. -/
theorem serveHTTP_log_counts (m : Middleware) (rw : Writer) (r : Request)
    (next : Writer → Request → NextOutcome)
    (hex : m.excludeURLs.contains r.urlPath = false) :
    countMsg (ServeHTTP m rw r next).logs "started handling request"
        = (if m.logStarting then 1 else 0) ∧
    countMsg (ServeHTTP m rw r next).logs "completed handling request" ≤ 1 := by
  have hcs : (("completed handling request" : String) == "started handling request") = false := by
    decide
  have hsc : (("started handling request" : String) == "completed handling request") = false := by
    decide
  have hss : (("started handling request" : String) == "started handling request") = true := by
    decide
  have hcc : (("completed handling request" : String) == "completed handling request") = true := by
    decide
  unfold ServeHTTP
  rw [hex]
  refine ⟨?_, ?_⟩ <;>
    cases hls : m.logStarting <;>
      simp [hls, countMsg_append, countMsg, hcs, hsc, hss, hcc] <;>
        split <;>
          simp [countMsg_append, countMsg, hcs, hsc, hss, hcc]

/-- Witness for C2 at a concrete non-excluded request. -/
theorem serveHTTP_log_counts_witness :
    countMsg (ServeHTTP mW rwCap rStd nextNoop).logs "started handling request"
        = (if mW.logStarting then 1 else 0) ∧
    countMsg (ServeHTTP mW rwCap rStd nextNoop).logs "completed handling request" ≤ 1 :=
  serveHTTP_log_counts mW rwCap rStd nextNoop (by decide)

/-- Claim C5: on a non-excluded request where neither the writer handed to
`ServeHTTP` nor a writer recovered via `ExtractWriter` from the request's
context supports the status-capturing capability, the completion log is
silently skipped: the After hook is never invoked and every record emitted
is the optional start record — no error or warning record exists, and the
call returns normally. -/
theorem serveHTTP_degrades_silently (m : Middleware) (rw : Writer) (r : Request)
    (next : Writer → Request → NextOutcome)
    (hex : m.excludeURLs.contains r.urlPath = false)
    (hcap : rw.supportsStatus = false)
    (hfall : ∀ w, ExtractWriter r.ctx = some w → w.supportsStatus = false) :
    (ServeHTTP m rw r next).afterCall = none ∧
    ∀ rec ∈ (ServeHTTP m rw r next).logs, rec.msg = "started handling request" := by
  unfold ServeHTTP
  rw [hex]
  cases hE : ExtractWriter r.ctx with
  | none =>
    cases hls : m.logStarting <;> simp [hcap, hls]
  | some w =>
    have hw := hfall w hE
    cases hls : m.logStarting <;> simp [hcap, hw, hls]

/-- Witness for C5: a plain writer and a context with no deposited writer. -/
theorem serveHTTP_degrades_silently_witness :
    (ServeHTTP mW rwPlain rStd nextNoop).afterCall = none :=
  (serveHTTP_degrades_silently mW rwPlain rStd nextNoop (by decide) rfl
    (fun _ h => Option.noConfusion h)).1

/-- Claim C8: on a non-excluded request where a status-capturing writer is
recovered, if the downstream chain writes the field `k ↦ v` (as its last
write for `k`) into the carrier reachable via `Extract`, then the handle
re-extracted from the middleware-installed context and passed to the After
hook maps `k` to `v`. -/
theorem serveHTTP_downstream_fields (m : Middleware) (rw : Writer) (r : Request)
    (next : Writer → Request → NextOutcome) (k : String) (v : Value)
    (hex : m.excludeURLs.contains r.urlPath = false)
    (hcap : rw.supportsStatus = true)
    (hadds : ∀ w q, lastAssign (next w q).fieldAdds k = some v) :
    ((ServeHTTP m rw r next).afterCall.map (fun t => t.1.data k)) = some (some v) := by
  unfold ServeHTTP
  rw [hex]
  simp only [Bool.false_eq_true, if_false, hcap, if_true]
  simp [hcap, Extract, applyAdds, ToContext, withFields, mapSetList_lookup, hadds]

/-- Witness for C8: a capable writer and a chain that adds `user_id`. -/
theorem serveHTTP_downstream_fields_witness :
    ((ServeHTTP mW rwCap rStd nextEnrich).afterCall.map
        (fun t => t.1.data "user_id")) = some (some (Value.str "u1")) :=
  serveHTTP_downstream_fields mW rwCap rStd nextEnrich "user_id" (Value.str "u1")
    (by decide) rfl (fun _ _ => rfl)

/-- Counterexample to C9: on a middleware whose hook fields are nil,
`ServeHTTP` itself mutates shared middleware state — it writes
`DefaultBefore`/`DefaultAfter` into the hook fields at dispatch time, so the
post-call middleware differs from the pre-call one. -/
theorem serveHTTP_mutates_hooks_cex :
    (ServeHTTP mW rwCap rStd nextNoop).finalM ≠ mW :=
  fun h => Option.noConfusion (congrArg Middleware.before h)

/-- Claim C9, amended: the only shared middleware state `ServeHTTP` mutates is
the defaulting of nil Before/After hooks at dispatch time; in particular the
excluded-path list (and every other field) is unchanged by every `ServeHTTP`
call, and with both hooks set the middleware is unchanged entirely. -/
theorem serveHTTP_state_change (m : Middleware) (rw : Writer) (r : Request)
    (next : Writer → Request → NextOutcome) :
    (ServeHTTP m rw r next).finalM =
      { m with before := some (m.before.getD DefaultBefore),
               after := some (m.after.getD DefaultAfter) } ∧
    (ServeHTTP m rw r next).finalM.excludeURLs = m.excludeURLs := by
  have h : (ServeHTTP m rw r next).finalM =
      { m with before := some (m.before.getD DefaultBefore),
               after := some (m.after.getD DefaultAfter) } := by
    unfold ServeHTTP
    split
    · rfl
    · cases hw : rw.supportsStatus
      · cases hE : ExtractWriter r.ctx with
        | none => simp [hw, hE]
        | some w => cases hws : w.supportsStatus <;> simp [hw, hE, hws]
      · simp [hw]
  exact ⟨h, by rw [h]⟩

/-- Claim C10: when the direct writer lacks the status-capturing capability, the
fallback consults `ExtractWriter` on the original request's context: the
result is unchanged by any writer the chain installs in its own derived
context; if nothing was deposited the failed capability check on the nil
writer is handled without panicking (no completion log, normal return); and
a capability-bearing writer deposited before dispatch is exactly the writer
handed to the After hook. -/
theorem serveHTTP_fallback_original_ctx (m : Middleware) (rw : Writer) (r : Request)
    (next : Writer → Request → NextOutcome)
    (hex : m.excludeURLs.contains r.urlPath = false)
    (hcap : rw.supportsStatus = false) :
    (∀ ow, ServeHTTP m rw r (fun w q => { next w q with installedWriter := ow })
        = ServeHTTP m rw r next) ∧
    (ExtractWriter r.ctx = none →
      (ServeHTTP m rw r next).afterCall = none ∧
      countMsg (ServeHTTP m rw r next).logs "completed handling request" = 0) ∧
    (∀ w, ExtractWriter r.ctx = some w → w.supportsStatus = true →
      (ServeHTTP m rw r next).afterCall.map (fun t => t.2.1) = some w) := by
  have hsc : (("started handling request" : String) == "completed handling request") = false := by
    decide
  refine ⟨fun ow => rfl, ?_, ?_⟩
  · intro hE
    unfold ServeHTTP
    rw [hex]
    cases hls : m.logStarting <;> simp [hcap, hE, hls, countMsg, hsc]
  · intro w hE hw
    unfold ServeHTTP
    rw [hex]
    simp [hcap, hE, hw]

/-- Witness for C10: no writer was deposited in the original context, so the
fallback yields the nil writer and the completion log is skipped. -/
theorem serveHTTP_fallback_original_ctx_witness :
    (ServeHTTP mW rwPlain rStd nextEnrich).afterCall = none ∧
    countMsg (ServeHTTP mW rwPlain rStd nextEnrich).logs "completed handling request" = 0 :=
  (serveHTTP_fallback_original_ctx mW rwPlain rStd nextEnrich (by decide) rfl).2.1 rfl

end NegroniLogrus
